import Mathlib

/-!
Shallow embedding of `mypy/fscache.py` (classes `FileSystemMetaCache` and
`FileSystemCache`): a per-transaction filesystem-state cache.

Modelling choices:

* The external world (the OS primitives `os.stat` and `os.listdir`, and the
  external decoder `mypy.util.read_with_python_encoding`) is an uninterpreted
  oracle, indexed by how many calls to that primitive have been made so far,
  so that the real filesystem may answer differently on later calls (this is
  how "the filesystem changes mid-transaction" is expressed).
* Python exceptions are represented by their kind (`ErrKind`); fallible
  operations return `Except ErrKind α`.  `ErrKind.isOSError` tells which
  kinds are `OSError` subclasses in Python: `FileNotFoundError`
  (`notFound`), `PermissionError` (`permissionDenied`), `NotADirectoryError`
  / `IsADirectoryError`, and other `IOError`s (`genericIOError`) are;
  `UnicodeDecodeError` (`decodeError`, a `ValueError` subclass),
  `ValueError` itself (`valueError`, e.g. raised by `os.stat` on a path with
  an embedded null byte) and `KeyError` (`keyError`) are not.
* The two classes are flattened into one state record `FileSystemCache`
  (the subclass adds fields to the base class); `metaFlush` is
  `FileSystemMetaCache.flush` and `flush` is `FileSystemCache.flush`.
* The success caches hidden inside `functools.lru_cache` are explicit
  association lists (`stat_cache`, `listdir_cache`); `lru_cache` only caches
  normal returns, so exceptions reach the explicit error caches, exactly as
  in the source.
* The fields `stat_log`, `listdir_log`, `read_log` record the arguments of
  the actual OS / decoder calls performed during the current transaction
  (the "call-counting stub" of the spec); they are instrumentation and are
  reset on `flush` (a new transaction).
-/

/-- Kind of a Python exception, as relevant to `fscache.py`. -/
inductive ErrKind where
  | notFound
  | permissionDenied
  | notADirectory
  | isADirectory
  | genericIOError
  | decodeError
  | valueError
  | keyError
deriving DecidableEq, Repr

/-- Whether the exception kind is an `OSError` subclass in Python
(caught by `except OSError`). -/
def ErrKind.isOSError : ErrKind → Bool
  | .notFound => true
  | .permissionDenied => true
  | .notADirectory => true
  | .isADirectory => true
  | .genericIOError => true
  | .decodeError => false
  | .valueError => false
  | .keyError => false

/-- Result of a successful `os.stat` (the fields `fscache.py` and its spec
care about). -/
structure StatRes where
  st_mode : Nat
  st_mtime : Nat
  st_size : Nat
deriving DecidableEq, Repr

/-- Python `stat.S_IFMT` mask (0o170000). -/
def S_IFMT : Nat := 61440

/-- Python `stat.S_IFREG` (0o100000). -/
def S_IFREG : Nat := 32768

/-- Python `stat.S_IFDIR` (0o040000). -/
def S_IFDIR : Nat := 16384

/-- Python `stat.S_ISREG(mode)`. -/
def S_ISREG (mode : Nat) : Bool := mode &&& S_IFMT == S_IFREG

/-- Python `stat.S_ISDIR(mode)`. -/
def S_ISDIR (mode : Nat) : Bool := mode &&& S_IFMT == S_IFDIR

/-- Lookup in an association list keyed by path (models `dict` lookup /
`lru_cache` hit on a string key). -/
def alookup {α : Type} : List (String × α) → String → Option α
  | [], _ => none
  | (k, v) :: rest, q => if k = q then some v else alookup rest q

/-- The external collaborators: `os.stat`, `os.listdir` and the decoder
`read_with_python_encoding` from `mypy/util.py` (which returns decoded text
together with an md5 fingerprint).  Each is indexed by the number of calls
already made to that primitive, so the underlying filesystem may change
between calls. -/
structure World where
  statFn : Nat → String → Except ErrKind StatRes
  listdirFn : Nat → String → Except ErrKind (List String)
  readFn : Nat → String → Nat × Nat → Except ErrKind (String × String)

/-- State of a `FileSystemCache` object (fields of `FileSystemMetaCache`
plus the content-cache fields added by the subclass), together with the
instrumentation logs of actual OS / decoder calls in this transaction. -/
structure FileSystemCache where
  stat_cache : List (String × StatRes)
  stat_error_cache : List (String × ErrKind)
  listdir_cache : List (String × List String)
  listdir_error_cache : List (String × ErrKind)
  read_cache : List (String × String)
  read_error_cache : List (String × ErrKind)
  hash_cache : List (String × String)
  pyversion : Nat × Nat
  stat_log : List String
  listdir_log : List String
  read_log : List String
deriving DecidableEq, Repr

namespace FileSystemCache

/-- Fresh cache state, as built by `FileSystemCache.__init__(pyversion)`. -/
def init (pyversion : Nat × Nat) : FileSystemCache :=
  { stat_cache := [], stat_error_cache := []
    listdir_cache := [], listdir_error_cache := []
    read_cache := [], read_error_cache := [], hash_cache := []
    pyversion := pyversion
    stat_log := [], listdir_log := [], read_log := [] }

/-- `FileSystemMetaCache.flush`: clear the stat / listdir success and error
caches (and reset the corresponding call logs: a new transaction begins). -/
def metaFlush (s : FileSystemCache) : FileSystemCache :=
  { s with stat_cache := [], stat_error_cache := []
           listdir_cache := [], listdir_error_cache := []
           stat_log := [], listdir_log := [] }

/-- `FileSystemCache.flush`: call the parent flush, then clear the content,
read-error and fingerprint caches. -/
def flush (s : FileSystemCache) : FileSystemCache :=
  { metaFlush s with read_cache := [], read_error_cache := [], hash_cache := []
                     read_log := [] }

/-- `self.stat(path)`: the `lru_cache`-wrapped `_stat`.  A cached success is
returned without running `_stat`; otherwise `_stat` replays a cached error
if present, else calls `os.stat`, caching success (via `lru_cache`) or
failure (via `stat_error_cache`). -/
def stat (w : World) (s : FileSystemCache) (path : String) :
    Except ErrKind StatRes × FileSystemCache :=
  match alookup s.stat_cache path with
  | some st => (.ok st, s)
  | none =>
    match alookup s.stat_error_cache path with
    | some e => (.error e, s)
    | none =>
      match w.statFn s.stat_log.length path with
      | .ok st =>
          (.ok st, { s with stat_cache := (path, st) :: s.stat_cache
                            stat_log := path :: s.stat_log })
      | .error e =>
          (.error e, { s with stat_error_cache := (path, e) :: s.stat_error_cache
                              stat_log := path :: s.stat_log })

/-- `self.listdir(path)`: the `lru_cache`-wrapped `_listdir`, with the same
memoize-with-error-caching pattern as `stat`. -/
def listdir (w : World) (s : FileSystemCache) (path : String) :
    Except ErrKind (List String) × FileSystemCache :=
  match alookup s.listdir_cache path with
  | some names => (.ok names, s)
  | none =>
    match alookup s.listdir_error_cache path with
    | some e => (.error e, s)
    | none =>
      match w.listdirFn s.listdir_log.length path with
      | .ok names =>
          (.ok names, { s with listdir_cache := (path, names) :: s.listdir_cache
                               listdir_log := path :: s.listdir_log })
      | .error e =>
          (.error e, { s with listdir_error_cache := (path, e) :: s.listdir_error_cache
                              listdir_log := path :: s.listdir_log })

/-- `isfile(path)`: `stat` guarded by `except OSError: return False`, then
`stat.S_ISREG(st.st_mode)`.  A non-`OSError` failure propagates. -/
def isfile (w : World) (s : FileSystemCache) (path : String) :
    Except ErrKind Bool × FileSystemCache :=
  match stat w s path with
  | (.ok st, s') => (.ok (S_ISREG st.st_mode), s')
  | (.error e, s') => if e.isOSError then (.ok false, s') else (.error e, s')

/-- `isdir(path)`: like `isfile` with `stat.S_ISDIR`. -/
def isdir (w : World) (s : FileSystemCache) (path : String) :
    Except ErrKind Bool × FileSystemCache :=
  match stat w s path with
  | (.ok st, s') => (.ok (S_ISDIR st.st_mode), s')
  | (.error e, s') => if e.isOSError then (.ok false, s') else (.error e, s')

/-- `exists(path)`: `stat` guarded by `except FileNotFoundError: return
False`; any other failure kind propagates. -/
def existsP (w : World) (s : FileSystemCache) (path : String) :
    Except ErrKind Bool × FileSystemCache :=
  match stat w s path with
  | (.ok _, s') => (.ok true, s')
  | (.error e, s') => if e = .notFound then (.ok false, s') else (.error e, s')

end FileSystemCache

/-- Index just past the last '/' in the character list (0 if none):
`p.rfind(sep) + 1` in `posixpath.split`. -/
def lastSlashEnd (cs : List Char) : Nat :=
  (cs.foldl
    (fun acc c =>
      let best := acc.1
      let i := acc.2
      (if c = '/' then i + 1 else best, i + 1))
    ((0 : Nat), (0 : Nat))).1

/-- Remove trailing '/' characters: Python `head.rstrip(sep)`. -/
def rstripSlash (cs : List Char) : List Char :=
  (cs.reverse.dropWhile (fun c => c = '/')).reverse

/-- Model of `os.path.split` (POSIX `posixpath.split`): split `p` at the
last '/', stripping trailing slashes from the head unless the head is all
slashes. -/
def splitPath (p : String) : String × String :=
  let cs := p.data
  let i := lastSlashEnd cs
  let head := cs.take i
  let tail := cs.drop i
  let head' := if head ≠ [] ∧ ¬ head.all (fun c => c = '/') then rstripSlash head else head
  (⟨head'⟩, ⟨tail⟩)

namespace FileSystemCache

/-- `isfile_case(path)`: split off the final component; empty tail gives
`False`; otherwise `tail in self.listdir(head) and self.isfile(path)` inside
`except OSError: res = False`. -/
def isfile_case (w : World) (s : FileSystemCache) (path : String) :
    Except ErrKind Bool × FileSystemCache :=
  let ht := splitPath path
  if ht.2 = "" then (.ok false, s)
  else
    match listdir w s ht.1 with
    | (.error e, s') => if e.isOSError then (.ok false, s') else (.error e, s')
    | (.ok names, s') =>
      if names.contains ht.2 then
        match isfile w s' path with
        | (.ok b, s'') => (.ok b, s'')
        | (.error e, s'') => if e.isOSError then (.ok false, s'') else (.error e, s'')
      else (.ok false, s')

/-- `read_with_python_encoding(path)`: serve the content cache, replay a
cached read error, otherwise `stat` first (so contents are never earlier
than the cached mtime; a `stat` failure propagates and caches nothing in
the content caches), then run the external decoder, caching failure in
`read_error_cache` or success in both `read_cache` and `hash_cache`. -/
def read_with_python_encoding (w : World) (s : FileSystemCache) (path : String) :
    Except ErrKind String × FileSystemCache :=
  match alookup s.read_cache path with
  | some data => (.ok data, s)
  | none =>
    match alookup s.read_error_cache path with
    | some e => (.error e, s)
    | none =>
      match stat w s path with
      | (.error e, s') => (.error e, s')
      | (.ok _, s') =>
        match w.readFn s'.read_log.length path s'.pyversion with
        | .error e =>
            (.error e, { s' with read_error_cache := (path, e) :: s'.read_error_cache
                                 read_log := path :: s'.read_log })
        | .ok dh =>
            (.ok dh.1, { s' with read_cache := (path, dh.1) :: s'.read_cache
                                 hash_cache := (path, dh.2) :: s'.hash_cache
                                 read_log := path :: s'.read_log })

/-- `md5(path)`: if no fingerprint is cached, call
`read_with_python_encoding` first, then return `self.hash_cache[path]`
(a missing key at that point would be Python's `KeyError`). -/
def md5 (w : World) (s : FileSystemCache) (path : String) :
    Except ErrKind String × FileSystemCache :=
  match alookup s.hash_cache path with
  | some h => (.ok h, s)
  | none =>
    match read_with_python_encoding w s path with
    | (.error e, s') => (.error e, s')
    | (.ok _, s') =>
      match alookup s'.hash_cache path with
      | some h => (.ok h, s')
      | none => (.error .keyError, s')

end FileSystemCache

/-- Number of occurrences of a path in a call log. -/
def countOcc (q : String) : List String → Nat
  | [] => 0
  | x :: rest => (if x = q then 1 else 0) + countOcc q rest

namespace FileSystemCache

/-- The cross-cache invariants maintained by every operation of the cache
within one transaction: success/error mutual exclusion per operation,
text/fingerprint key agreement, stat-before-content, and at most one actual
OS / decoder call per (operation, path) pair (exactly one when an outcome
is cached). -/
structure Inv (s : FileSystemCache) : Prop where
  stat_excl : ∀ q, (alookup s.stat_cache q).isSome → alookup s.stat_error_cache q = none
  listdir_excl : ∀ q, (alookup s.listdir_cache q).isSome → alookup s.listdir_error_cache q = none
  read_excl : ∀ q, (alookup s.read_cache q).isSome → alookup s.read_error_cache q = none
  hash_keys : ∀ q, (alookup s.read_cache q).isSome ↔ (alookup s.hash_cache q).isSome
  read_stat : ∀ q, (alookup s.read_cache q).isSome → (alookup s.stat_cache q).isSome
  stat_once : ∀ q, countOcc q s.stat_log =
      (if (alookup s.stat_cache q).isSome || (alookup s.stat_error_cache q).isSome then 1 else 0)
  listdir_once : ∀ q, countOcc q s.listdir_log =
      (if (alookup s.listdir_cache q).isSome || (alookup s.listdir_error_cache q).isSome then 1 else 0)
  read_once : ∀ q, countOcc q s.read_log =
      (if (alookup s.read_cache q).isSome || (alookup s.read_error_cache q).isSome then 1 else 0)

/-- One public operation of a `FileSystemCache` object (an arbitrary path
and an arbitrary state of the outside world). -/
inductive Step : FileSystemCache → FileSystemCache → Prop where
  | ofStat (w : World) (s : FileSystemCache) (p : String) : Step s (stat w s p).2
  | ofListdir (w : World) (s : FileSystemCache) (p : String) : Step s (listdir w s p).2
  | ofIsfile (w : World) (s : FileSystemCache) (p : String) : Step s (isfile w s p).2
  | ofIsfileCase (w : World) (s : FileSystemCache) (p : String) : Step s (isfile_case w s p).2
  | ofIsdir (w : World) (s : FileSystemCache) (p : String) : Step s (isdir w s p).2
  | ofExists (w : World) (s : FileSystemCache) (p : String) : Step s (existsP w s p).2
  | ofRead (w : World) (s : FileSystemCache) (p : String) :
      Step s (read_with_python_encoding w s p).2
  | ofMd5 (w : World) (s : FileSystemCache) (p : String) : Step s (md5 w s p).2
  | ofFlush (s : FileSystemCache) : Step s (flush s)

/-- States of a `FileSystemCache` object reachable from construction by any
sequence of public operations. -/
inductive Reachable : FileSystemCache → Prop where
  | init (pyv : Nat × Nat) : Reachable (init pyv)
  | step {s t : FileSystemCache} : Reachable s → Step s t → Reachable t

end FileSystemCache

/-- A world where every path is a regular file (mode 0o100644) and reads
decode to "text" with fingerprint "hash". -/
def wOk : World :=
  { statFn := fun _ _ => .ok ⟨33188, 10, 5⟩
    listdirFn := fun _ _ => .ok ["Foo.py"]
    readFn := fun _ _ _ => .ok ("text", "hash") }

/-- A world where every OS call fails with `PermissionError` and every
decode fails with a generic `IOError`. -/
def wFail : World :=
  { statFn := fun _ _ => .error .permissionDenied
    listdirFn := fun _ _ => .error .permissionDenied
    readFn := fun _ _ _ => .error .genericIOError }

/-- A world where every OS call fails with `FileNotFoundError`. -/
def wNotFound : World :=
  { statFn := fun _ _ => .error .notFound
    listdirFn := fun _ _ => .error .notFound
    readFn := fun _ _ _ => .error .notFound }

/-- A world where the OS primitives fail with a non-`OSError` exception
(Python `ValueError`, as raised by `os.stat` / `os.listdir` on a path with
an embedded null byte). -/
def wValueErr : World :=
  { statFn := fun _ _ => .error .valueError
    listdirFn := fun _ _ => .error .valueError
    readFn := fun _ _ _ => .error .decodeError }

/-- A world whose directory "d" contains exactly one entry "Foo.py", which
is a regular file; every other path is absent. -/
def w6 : World :=
  { statFn := fun _ p => if p = "d/Foo.py" then .ok ⟨33188, 10, 5⟩ else .error .notFound
    listdirFn := fun _ p => if p = "d" then .ok ["Foo.py"] else .error .notFound
    readFn := fun _ _ _ => .error .genericIOError }

/-- State after one failing `stat("a")` on a fresh cache. -/
def sFailA : FileSystemCache := (FileSystemCache.stat wFail (FileSystemCache.init (3, 6)) "a").2

/-- State after one successful `read_with_python_encoding("a")` on a fresh
cache. -/
def sReadA : FileSystemCache :=
  (FileSystemCache.read_with_python_encoding wOk (FileSystemCache.init (3, 6)) "a").2

/-- State after a failing `stat("a")` (permission denied) followed by a
successful `read_with_python_encoding("b")`, the filesystem having changed
in between. -/
def sMix : FileSystemCache := (FileSystemCache.read_with_python_encoding wOk sFailA "b").2

/-! ### Basic lemmas about association-list lookup -/

theorem alookup_cons {α : Type} (k : String) (v : α) (l : List (String × α)) (q : String) :
    alookup ((k, v) :: l) q = if k = q then some v else alookup l q := rfl

theorem alookup_cons_self {α : Type} (k : String) (v : α) (l : List (String × α)) :
    alookup ((k, v) :: l) k = some v := by
  simp [alookup]

theorem alookup_cons_ne {α : Type} {k q : String} (v : α) (l : List (String × α))
    (h : k ≠ q) : alookup ((k, v) :: l) q = alookup l q := by
  simp [alookup, h]

namespace FileSystemCache

/-! ### Frame lemmas: each operation touches only its own caches -/

theorem stat_frame (w : World) (s : FileSystemCache) (p : String) :
    (stat w s p).2.listdir_cache = s.listdir_cache ∧
    (stat w s p).2.listdir_error_cache = s.listdir_error_cache ∧
    (stat w s p).2.read_cache = s.read_cache ∧
    (stat w s p).2.read_error_cache = s.read_error_cache ∧
    (stat w s p).2.hash_cache = s.hash_cache ∧
    (stat w s p).2.pyversion = s.pyversion ∧
    (stat w s p).2.listdir_log = s.listdir_log ∧
    (stat w s p).2.read_log = s.read_log := by
  unfold stat
  cases alookup s.stat_cache p
  · cases alookup s.stat_error_cache p
    · cases w.statFn s.stat_log.length p <;> simp
    · simp
  · simp

theorem listdir_frame (w : World) (s : FileSystemCache) (p : String) :
    (listdir w s p).2.stat_cache = s.stat_cache ∧
    (listdir w s p).2.stat_error_cache = s.stat_error_cache ∧
    (listdir w s p).2.read_cache = s.read_cache ∧
    (listdir w s p).2.read_error_cache = s.read_error_cache ∧
    (listdir w s p).2.hash_cache = s.hash_cache ∧
    (listdir w s p).2.pyversion = s.pyversion ∧
    (listdir w s p).2.stat_log = s.stat_log ∧
    (listdir w s p).2.read_log = s.read_log := by
  unfold listdir
  cases alookup s.listdir_cache p
  · cases alookup s.listdir_error_cache p
    · cases w.listdirFn s.listdir_log.length p <;> simp
    · simp
  · simp

/-! ### Idempotence of the four cached operations -/

theorem stat_idem (w : World) (s : FileSystemCache) (p : String) :
    stat w (stat w s p).2 p = stat w s p := by
  cases h1 : alookup s.stat_cache p with
  | some st => simp [stat, h1]
  | none =>
    cases h2 : alookup s.stat_error_cache p with
    | some e => simp [stat, h1, h2]
    | none =>
      cases h3 : w.statFn s.stat_log.length p with
      | ok st => simp [stat, h1, h2, h3, alookup_cons_self]
      | error e => simp [stat, h1, h2, h3, alookup_cons_self]

theorem listdir_idem (w : World) (s : FileSystemCache) (p : String) :
    listdir w (listdir w s p).2 p = listdir w s p := by
  cases h1 : alookup s.listdir_cache p with
  | some names => simp [listdir, h1]
  | none =>
    cases h2 : alookup s.listdir_error_cache p with
    | some e => simp [listdir, h1, h2]
    | none =>
      cases h3 : w.listdirFn s.listdir_log.length p with
      | ok names => simp [listdir, h1, h2, h3, alookup_cons_self]
      | error e => simp [listdir, h1, h2, h3, alookup_cons_self]

end FileSystemCache

namespace FileSystemCache

theorem read_idem (w : World) (s : FileSystemCache) (p : String) :
    read_with_python_encoding w (read_with_python_encoding w s p).2 p
      = read_with_python_encoding w s p := by
  cases h1 : alookup s.read_cache p with
  | some d => simp [read_with_python_encoding, h1]
  | none =>
  cases h2 : alookup s.read_error_cache p with
  | some e => simp [read_with_python_encoding, h1, h2]
  | none =>
  cases hs1 : alookup s.stat_cache p with
  | some st =>
    cases h4 : w.readFn s.read_log.length p s.pyversion with
    | ok dh =>
      simp [read_with_python_encoding, stat, h1, h2, hs1, h4, alookup_cons_self]
    | error e =>
      simp [read_with_python_encoding, stat, h1, h2, hs1, h4, alookup_cons_self]
  | none =>
  cases hs2 : alookup s.stat_error_cache p with
  | some e => simp [read_with_python_encoding, stat, h1, h2, hs1, hs2]
  | none =>
  cases hs3 : w.statFn s.stat_log.length p with
  | error e =>
    simp [read_with_python_encoding, stat, h1, h2, hs1, hs2, hs3, alookup_cons_self]
  | ok st =>
    cases h4 : w.readFn s.read_log.length p s.pyversion with
    | ok dh =>
      simp [read_with_python_encoding, stat, h1, h2, hs1, hs2, hs3, h4, alookup_cons_self]
    | error e =>
      simp [read_with_python_encoding, stat, h1, h2, hs1, hs2, hs3, h4, alookup_cons_self]

theorem md5_idem (w : World) (s : FileSystemCache) (p : String) :
    md5 w (md5 w s p).2 p = md5 w s p := by
  cases h1 : alookup s.hash_cache p with
  | some h => simp [md5, h1]
  | none =>
  cases r1 : alookup s.read_cache p with
  | some d => simp [md5, read_with_python_encoding, h1, r1]
  | none =>
  cases r2 : alookup s.read_error_cache p with
  | some e => simp [md5, read_with_python_encoding, h1, r1, r2]
  | none =>
  cases hs1 : alookup s.stat_cache p with
  | some st =>
    cases h4 : w.readFn s.read_log.length p s.pyversion with
    | ok dh =>
      simp [md5, read_with_python_encoding, stat, h1, r1, r2, hs1, h4, alookup_cons_self]
    | error e =>
      simp [md5, read_with_python_encoding, stat, h1, r1, r2, hs1, h4, alookup_cons_self]
  | none =>
  cases hs2 : alookup s.stat_error_cache p with
  | some e => simp [md5, read_with_python_encoding, stat, h1, r1, r2, hs1, hs2]
  | none =>
  cases hs3 : w.statFn s.stat_log.length p with
  | error e =>
    simp [md5, read_with_python_encoding, stat, h1, r1, r2, hs1, hs2, hs3, alookup_cons_self]
  | ok st =>
    cases h4 : w.readFn s.read_log.length p s.pyversion with
    | ok dh =>
      simp [md5, read_with_python_encoding, stat, h1, r1, r2, hs1, hs2, hs3, h4,
        alookup_cons_self]
    | error e =>
      simp [md5, read_with_python_encoding, stat, h1, r1, r2, hs1, hs2, hs3, h4,
        alookup_cons_self]

end FileSystemCache


theorem countOcc_nil (q : String) : countOcc q [] = 0 := rfl

theorem countOcc_cons (q x : String) (l : List String) :
    countOcc q (x :: l) = (if x = q then 1 else 0) + countOcc q l := rfl

theorem alookup_isSome_cons {α : Type} {l : List (String × α)} {q : String}
    (k : String) (v : α) (h : (alookup l q).isSome) :
    (alookup ((k, v) :: l) q).isSome := by
  rcases eq_or_ne k q with rfl | hne
  · simp [alookup_cons_self]
  · rwa [alookup_cons_ne _ _ hne]

namespace FileSystemCache


theorem inv_init (pyv : Nat × Nat) : Inv (init pyv) := by
  constructor <;> intro q <;> simp [init, alookup, countOcc]

theorem inv_flush (s : FileSystemCache) : Inv (flush s) := by
  constructor <;> intro q <;> simp [flush, metaFlush, alookup, countOcc]

theorem inv_statPut (t : FileSystemCache) (hI : Inv t) (p : String) (st : StatRes)
    (h1 : alookup t.stat_cache p = none) (h2 : alookup t.stat_error_cache p = none) :
    Inv { t with stat_cache := (p, st) :: t.stat_cache, stat_log := p :: t.stat_log } := by
  refine ⟨?_, hI.listdir_excl, hI.read_excl, hI.hash_keys, ?_, ?_,
    hI.listdir_once, hI.read_once⟩
  · intro q hq
    rcases eq_or_ne p q with rfl | hne
    · exact h2
    · rw [alookup_cons_ne _ _ hne] at hq
      exact hI.stat_excl q hq
  · intro q hq
    exact alookup_isSome_cons p st (hI.read_stat q hq)
  · intro q
    rcases eq_or_ne p q with rfl | hne
    · have h0 := hI.stat_once p
      rw [h1, h2] at h0
      simp only [Option.isSome_none, Bool.or_self, if_neg] at h0
      simp [countOcc_cons, h0, alookup_cons_self]
    · have h0 := hI.stat_once q
      simp [countOcc_cons, hne, alookup_cons_ne _ _ hne, h0]

theorem inv_statErrPut (t : FileSystemCache) (hI : Inv t) (p : String) (e : ErrKind)
    (h1 : alookup t.stat_cache p = none) (h2 : alookup t.stat_error_cache p = none) :
    Inv { t with stat_error_cache := (p, e) :: t.stat_error_cache,
                 stat_log := p :: t.stat_log } := by
  refine ⟨?_, hI.listdir_excl, hI.read_excl, hI.hash_keys, hI.read_stat, ?_,
    hI.listdir_once, hI.read_once⟩
  · intro q hq
    rcases eq_or_ne p q with rfl | hne
    · rw [h1] at hq
      simp at hq
    · rw [alookup_cons_ne _ _ hne]
      exact hI.stat_excl q hq
  · intro q
    rcases eq_or_ne p q with rfl | hne
    · have h0 := hI.stat_once p
      rw [h1, h2] at h0
      simp only [Option.isSome_none, Bool.or_self, if_neg] at h0
      simp [countOcc_cons, h0, alookup_cons_self]
    · have h0 := hI.stat_once q
      simp [countOcc_cons, hne, alookup_cons_ne _ _ hne, h0]

theorem inv_listdirPut (t : FileSystemCache) (hI : Inv t) (p : String) (names : List String)
    (h1 : alookup t.listdir_cache p = none) (h2 : alookup t.listdir_error_cache p = none) :
    Inv { t with listdir_cache := (p, names) :: t.listdir_cache,
                 listdir_log := p :: t.listdir_log } := by
  refine ⟨hI.stat_excl, ?_, hI.read_excl, hI.hash_keys, hI.read_stat, hI.stat_once, ?_,
    hI.read_once⟩
  · intro q hq
    rcases eq_or_ne p q with rfl | hne
    · exact h2
    · rw [alookup_cons_ne _ _ hne] at hq
      exact hI.listdir_excl q hq
  · intro q
    rcases eq_or_ne p q with rfl | hne
    · have h0 := hI.listdir_once p
      rw [h1, h2] at h0
      simp only [Option.isSome_none, Bool.or_self, if_neg] at h0
      simp [countOcc_cons, h0, alookup_cons_self]
    · have h0 := hI.listdir_once q
      simp [countOcc_cons, hne, alookup_cons_ne _ _ hne, h0]

theorem inv_listdirErrPut (t : FileSystemCache) (hI : Inv t) (p : String) (e : ErrKind)
    (h1 : alookup t.listdir_cache p = none) (h2 : alookup t.listdir_error_cache p = none) :
    Inv { t with listdir_error_cache := (p, e) :: t.listdir_error_cache,
                 listdir_log := p :: t.listdir_log } := by
  refine ⟨hI.stat_excl, ?_, hI.read_excl, hI.hash_keys, hI.read_stat, hI.stat_once, ?_,
    hI.read_once⟩
  · intro q hq
    rcases eq_or_ne p q with rfl | hne
    · rw [h1] at hq
      simp at hq
    · rw [alookup_cons_ne _ _ hne]
      exact hI.listdir_excl q hq
  · intro q
    rcases eq_or_ne p q with rfl | hne
    · have h0 := hI.listdir_once p
      rw [h1, h2] at h0
      simp only [Option.isSome_none, Bool.or_self, if_neg] at h0
      simp [countOcc_cons, h0, alookup_cons_self]
    · have h0 := hI.listdir_once q
      simp [countOcc_cons, hne, alookup_cons_ne _ _ hne, h0]

theorem inv_readPut (t : FileSystemCache) (hI : Inv t) (p d hsh : String)
    (h1 : alookup t.read_cache p = none) (h2 : alookup t.read_error_cache p = none)
    (h3 : (alookup t.stat_cache p).isSome) :
    Inv { t with read_cache := (p, d) :: t.read_cache,
                 hash_cache := (p, hsh) :: t.hash_cache,
                 read_log := p :: t.read_log } := by
  refine ⟨hI.stat_excl, hI.listdir_excl, ?_, ?_, ?_, hI.stat_once, hI.listdir_once, ?_⟩
  · intro q hq
    rcases eq_or_ne p q with rfl | hne
    · exact h2
    · rw [alookup_cons_ne _ _ hne] at hq
      exact hI.read_excl q hq
  · intro q
    rcases eq_or_ne p q with rfl | hne
    · simp [alookup_cons_self]
    · rw [alookup_cons_ne _ _ hne, alookup_cons_ne _ _ hne]
      exact hI.hash_keys q
  · intro q hq
    rcases eq_or_ne p q with rfl | hne
    · exact h3
    · rw [alookup_cons_ne _ _ hne] at hq
      exact hI.read_stat q hq
  · intro q
    rcases eq_or_ne p q with rfl | hne
    · have h0 := hI.read_once p
      rw [h1, h2] at h0
      simp only [Option.isSome_none, Bool.or_self, if_neg] at h0
      simp [countOcc_cons, h0, alookup_cons_self]
    · have h0 := hI.read_once q
      simp [countOcc_cons, hne, alookup_cons_ne _ _ hne, h0]

theorem inv_readErrPut (t : FileSystemCache) (hI : Inv t) (p : String) (e : ErrKind)
    (h1 : alookup t.read_cache p = none) (h2 : alookup t.read_error_cache p = none) :
    Inv { t with read_error_cache := (p, e) :: t.read_error_cache,
                 read_log := p :: t.read_log } := by
  refine ⟨hI.stat_excl, hI.listdir_excl, ?_, hI.hash_keys, hI.read_stat, hI.stat_once,
    hI.listdir_once, ?_⟩
  · intro q hq
    rcases eq_or_ne p q with rfl | hne
    · rw [h1] at hq
      simp at hq
    · rw [alookup_cons_ne _ _ hne]
      exact hI.read_excl q hq
  · intro q
    rcases eq_or_ne p q with rfl | hne
    · have h0 := hI.read_once p
      rw [h1, h2] at h0
      simp only [Option.isSome_none, Bool.or_self, if_neg] at h0
      simp [countOcc_cons, h0, alookup_cons_self]
    · have h0 := hI.read_once q
      simp [countOcc_cons, hne, alookup_cons_ne _ _ hne, h0]

end FileSystemCache

namespace FileSystemCache

theorem inv_stat (w : World) (s : FileSystemCache) (p : String) (h : Inv s) :
    Inv (stat w s p).2 := by
  cases hs1 : alookup s.stat_cache p with
  | some st => simpa [stat, hs1] using h
  | none =>
  cases hs2 : alookup s.stat_error_cache p with
  | some e => simpa [stat, hs1, hs2] using h
  | none =>
  cases hs3 : w.statFn s.stat_log.length p with
  | ok st =>
    simp only [stat, hs1, hs2, hs3]
    exact inv_statPut s h p st hs1 hs2
  | error e =>
    simp only [stat, hs1, hs2, hs3]
    exact inv_statErrPut s h p e hs1 hs2

theorem inv_listdir (w : World) (s : FileSystemCache) (p : String) (h : Inv s) :
    Inv (listdir w s p).2 := by
  cases hs1 : alookup s.listdir_cache p with
  | some names => simpa [listdir, hs1] using h
  | none =>
  cases hs2 : alookup s.listdir_error_cache p with
  | some e => simpa [listdir, hs1, hs2] using h
  | none =>
  cases hs3 : w.listdirFn s.listdir_log.length p with
  | ok names =>
    simp only [listdir, hs1, hs2, hs3]
    exact inv_listdirPut s h p names hs1 hs2
  | error e =>
    simp only [listdir, hs1, hs2, hs3]
    exact inv_listdirErrPut s h p e hs1 hs2

theorem isfile_snd (w : World) (s : FileSystemCache) (p : String) :
    (isfile w s p).2 = (stat w s p).2 := by
  unfold isfile
  cases stat w s p with
  | mk r s' =>
    cases r with
    | ok st => rfl
    | error e => by_cases he : e.isOSError <;> simp [he]

theorem isdir_snd (w : World) (s : FileSystemCache) (p : String) :
    (isdir w s p).2 = (stat w s p).2 := by
  unfold isdir
  cases stat w s p with
  | mk r s' =>
    cases r with
    | ok st => rfl
    | error e => by_cases he : e.isOSError <;> simp [he]

theorem existsP_snd (w : World) (s : FileSystemCache) (p : String) :
    (existsP w s p).2 = (stat w s p).2 := by
  unfold existsP
  cases stat w s p with
  | mk r s' =>
    cases r with
    | ok st => rfl
    | error e => by_cases he : e = .notFound <;> simp [he]

theorem inv_isfile (w : World) (s : FileSystemCache) (p : String) (h : Inv s) :
    Inv (isfile w s p).2 := by
  rw [isfile_snd]
  exact inv_stat w s p h

theorem inv_isdir (w : World) (s : FileSystemCache) (p : String) (h : Inv s) :
    Inv (isdir w s p).2 := by
  rw [isdir_snd]
  exact inv_stat w s p h

theorem inv_existsP (w : World) (s : FileSystemCache) (p : String) (h : Inv s) :
    Inv (existsP w s p).2 := by
  rw [existsP_snd]
  exact inv_stat w s p h

theorem inv_isfile_case (w : World) (s : FileSystemCache) (p : String) (h : Inv s) :
    Inv (isfile_case w s p).2 := by
  unfold isfile_case
  by_cases ht : (splitPath p).2 = ""
  · simpa [ht] using h
  · simp only [if_neg ht]
    cases hld : listdir w s (splitPath p).1 with
    | mk r s' =>
      have hs' : Inv s' := by
        have h2 := inv_listdir w s (splitPath p).1 h
        rw [hld] at h2
        exact h2
      cases r with
      | error e => by_cases he : e.isOSError <;> simp [he, hs']
      | ok names =>
        dsimp only
        cases hm : names.contains (splitPath p).2 with
        | false =>
          rw [if_neg (by simp [hm])]
          exact hs'
        | true =>
          rw [if_pos (by simp [hm])]
          cases hif : isfile w s' p with
          | mk r2 s'' =>
            have hs'' : Inv s'' := by
              have h3 := inv_isfile w s' p hs'
              rw [hif] at h3
              exact h3
            cases r2 with
            | ok b => exact hs''
            | error e => by_cases he : e.isOSError <;> simp [he, hs'']

theorem inv_read (w : World) (s : FileSystemCache) (p : String) (h : Inv s) :
    Inv (read_with_python_encoding w s p).2 := by
  cases r1 : alookup s.read_cache p with
  | some d => simpa [read_with_python_encoding, r1] using h
  | none =>
  cases r2 : alookup s.read_error_cache p with
  | some e => simpa [read_with_python_encoding, r1, r2] using h
  | none =>
  cases hs1 : alookup s.stat_cache p with
  | some st =>
    cases h4 : w.readFn s.read_log.length p s.pyversion with
    | ok dh =>
      simp only [read_with_python_encoding, stat, r1, r2, hs1, h4]
      exact inv_readPut s h p dh.1 dh.2 r1 r2 (by simp [hs1])
    | error e =>
      simp only [read_with_python_encoding, stat, r1, r2, hs1, h4]
      exact inv_readErrPut s h p e r1 r2
  | none =>
  cases hs2 : alookup s.stat_error_cache p with
  | some e => simpa [read_with_python_encoding, stat, r1, r2, hs1, hs2] using h
  | none =>
  cases hs3 : w.statFn s.stat_log.length p with
  | error e =>
    simp only [read_with_python_encoding, stat, r1, r2, hs1, hs2, hs3]
    exact inv_statErrPut s h p e hs1 hs2
  | ok st =>
    cases h4 : w.readFn s.read_log.length p s.pyversion with
    | ok dh =>
      simp only [read_with_python_encoding, stat, r1, r2, hs1, hs2, hs3, h4]
      exact inv_readPut _ (inv_statPut s h p st hs1 hs2) p dh.1 dh.2 (by simpa using r1)
        (by simpa using r2) (by simp [alookup_cons_self])
    | error e =>
      simp only [read_with_python_encoding, stat, r1, r2, hs1, hs2, hs3, h4]
      exact inv_readErrPut _ (inv_statPut s h p st hs1 hs2) p e (by simpa using r1)
        (by simpa using r2)

theorem inv_md5 (w : World) (s : FileSystemCache) (p : String) (h : Inv s) :
    Inv (md5 w s p).2 := by
  cases h1 : alookup s.hash_cache p with
  | some hsh => simpa [md5, h1] using h
  | none =>
    cases hr : read_with_python_encoding w s p with
    | mk r s' =>
      have hs' : Inv s' := by
        have h2 := inv_read w s p h
        rw [hr] at h2
        exact h2
      cases r with
      | error e => simpa [md5, h1, hr] using hs'
      | ok d =>
        cases h2 : alookup s'.hash_cache p with
        | some hsh => simpa [md5, h1, hr, h2] using hs'
        | none => simpa [md5, h1, hr, h2] using hs'


theorem inv_step {s t : FileSystemCache} (h : Inv s) (hstep : Step s t) : Inv t := by
  cases hstep with
  | ofStat w s p => exact inv_stat w s p h
  | ofListdir w s p => exact inv_listdir w s p h
  | ofIsfile w s p => exact inv_isfile w s p h
  | ofIsfileCase w s p => exact inv_isfile_case w s p h
  | ofIsdir w s p => exact inv_isdir w s p h
  | ofExists w s p => exact inv_existsP w s p h
  | ofRead w s p => exact inv_read w s p h
  | ofMd5 w s p => exact inv_md5 w s p h
  | ofFlush s => exact inv_flush s

/-- Every reachable state satisfies the cross-cache invariants. -/
theorem reachable_inv {s : FileSystemCache} (h : Reachable s) : Inv s := by
  induction h with
  | init pyv => exact inv_init pyv
  | step _ hstep ih => exact inv_step ih hstep

end FileSystemCache

namespace FileSystemCache

theorem stat_ok_cached (w : World) (s : FileSystemCache) (p : String) (st : StatRes)
    (s' : FileSystemCache) (h : stat w s p = (.ok st, s')) :
    (alookup s'.stat_cache p).isSome := by
  cases hs1 : alookup s.stat_cache p with
  | some st0 =>
    simp only [stat, hs1] at h
    injection h with h1 h2
    subst h2
    simp [hs1]
  | none =>
  cases hs2 : alookup s.stat_error_cache p with
  | some e =>
    simp only [stat, hs1, hs2] at h
    exact absurd (congrArg Prod.fst h) (by simp)
  | none =>
  cases hs3 : w.statFn s.stat_log.length p with
  | ok st0 =>
    simp only [stat, hs1, hs2, hs3] at h
    injection h with h1 h2
    subst h2
    simp [alookup_cons_self]
  | error e =>
    simp only [stat, hs1, hs2, hs3] at h
    exact absurd (congrArg Prod.fst h) (by simp)

theorem read_ok_cached (w : World) (s : FileSystemCache) (p d : String)
    (s' : FileSystemCache) (h : read_with_python_encoding w s p = (.ok d, s')) :
    (alookup s'.read_cache p).isSome := by
  cases r1 : alookup s.read_cache p with
  | some d0 =>
    simp only [read_with_python_encoding, r1] at h
    injection h with h1 h2
    subst h2
    simp [r1]
  | none =>
  cases r2 : alookup s.read_error_cache p with
  | some e =>
    simp only [read_with_python_encoding, r1, r2] at h
    exact absurd (congrArg Prod.fst h) (by simp)
  | none =>
  cases hst : stat w s p with
  | mk r s₁ =>
    cases r with
    | error e =>
      simp only [read_with_python_encoding, r1, r2, hst] at h
      exact absurd (congrArg Prod.fst h) (by simp)
    | ok st =>
      cases h4 : w.readFn s₁.read_log.length p s₁.pyversion with
      | error e =>
        simp only [read_with_python_encoding, r1, r2, hst, h4] at h
        exact absurd (congrArg Prod.fst h) (by simp)
      | ok dh =>
        simp only [read_with_python_encoding, r1, r2, hst, h4] at h
        injection h with h1 h2
        subst h2
        simp [alookup_cons_self]

theorem read_fresh_stat_err (w : World) (s : FileSystemCache) (p : String) (e : ErrKind)
    (s₁ : FileSystemCache)
    (h1 : alookup s.read_cache p = none) (h2 : alookup s.read_error_cache p = none)
    (h3 : stat w s p = (.error e, s₁)) :
    read_with_python_encoding w s p = (.error e, s₁) := by
  simp [read_with_python_encoding, h1, h2, h3]

theorem stat_frame_eq (w : World) (s : FileSystemCache) (p : String)
    (r : Except ErrKind StatRes) (s₁ : FileSystemCache) (h : stat w s p = (r, s₁)) :
    s₁.read_cache = s.read_cache ∧ s₁.read_error_cache = s.read_error_cache ∧
    s₁.hash_cache = s.hash_cache := by
  have hf := stat_frame w s p
  rw [h] at hf
  exact ⟨hf.2.2.1, hf.2.2.2.1, hf.2.2.2.2.1⟩

theorem listdir_frame_eq (w : World) (s : FileSystemCache) (p : String)
    (r : Except ErrKind (List String)) (s₁ : FileSystemCache) (h : listdir w s p = (r, s₁)) :
    s₁.stat_cache = s.stat_cache ∧ s₁.stat_error_cache = s.stat_error_cache := by
  have hf := listdir_frame w s p
  rw [h] at hf
  exact ⟨hf.1, hf.2.1⟩

theorem stat_err_os (w : World) (s : FileSystemCache) (p : String)
    (hw : ∀ n q e, w.statFn n q = .error e → e.isOSError = true)
    (hc : ∀ q e, alookup s.stat_error_cache q = some e → e.isOSError = true)
    {e : ErrKind} {s' : FileSystemCache} (h : stat w s p = (.error e, s')) :
    e.isOSError = true := by
  cases hs1 : alookup s.stat_cache p with
  | some st =>
    simp only [stat, hs1] at h
    exact absurd (congrArg Prod.fst h) (by simp)
  | none =>
  cases hs2 : alookup s.stat_error_cache p with
  | some e0 =>
    simp only [stat, hs1, hs2] at h
    have he : e0 = e := by
      have := congrArg Prod.fst h
      simpa using this
    exact he ▸ hc p e0 hs2
  | none =>
  cases hs3 : w.statFn s.stat_log.length p with
  | ok st =>
    simp only [stat, hs1, hs2, hs3] at h
    exact absurd (congrArg Prod.fst h) (by simp)
  | error e0 =>
    simp only [stat, hs1, hs2, hs3] at h
    have he : e0 = e := by
      have := congrArg Prod.fst h
      simpa using this
    exact he ▸ hw s.stat_log.length p e0 hs3

theorem listdir_err_os (w : World) (s : FileSystemCache) (p : String)
    (hw : ∀ n q e, w.listdirFn n q = .error e → e.isOSError = true)
    (hc : ∀ q e, alookup s.listdir_error_cache q = some e → e.isOSError = true)
    {e : ErrKind} {s' : FileSystemCache} (h : listdir w s p = (.error e, s')) :
    e.isOSError = true := by
  cases hs1 : alookup s.listdir_cache p with
  | some names =>
    simp only [listdir, hs1] at h
    exact absurd (congrArg Prod.fst h) (by simp)
  | none =>
  cases hs2 : alookup s.listdir_error_cache p with
  | some e0 =>
    simp only [listdir, hs1, hs2] at h
    have he : e0 = e := by
      have := congrArg Prod.fst h
      simpa using this
    exact he ▸ hc p e0 hs2
  | none =>
  cases hs3 : w.listdirFn s.listdir_log.length p with
  | ok names =>
    simp only [listdir, hs1, hs2, hs3] at h
    exact absurd (congrArg Prod.fst h) (by simp)
  | error e0 =>
    simp only [listdir, hs1, hs2, hs3] at h
    have he : e0 = e := by
      have := congrArg Prod.fst h
      simpa using this
    exact he ▸ hw s.listdir_log.length p e0 hs3

theorem isfile_ok_of_os (w : World) (s : FileSystemCache) (p : String)
    (hw : ∀ n q e, w.statFn n q = .error e → e.isOSError = true)
    (hc : ∀ q e, alookup s.stat_error_cache q = some e → e.isOSError = true) :
    ∃ b s', isfile w s p = (.ok b, s') := by
  cases hst : stat w s p with
  | mk r s₁ =>
    cases r with
    | ok st => exact ⟨S_ISREG st.st_mode, s₁, by simp [isfile, hst]⟩
    | error e =>
      have he := stat_err_os w s p hw hc hst
      exact ⟨false, s₁, by simp [isfile, hst, he]⟩

theorem isdir_ok_of_os (w : World) (s : FileSystemCache) (p : String)
    (hw : ∀ n q e, w.statFn n q = .error e → e.isOSError = true)
    (hc : ∀ q e, alookup s.stat_error_cache q = some e → e.isOSError = true) :
    ∃ b s', isdir w s p = (.ok b, s') := by
  cases hst : stat w s p with
  | mk r s₁ =>
    cases r with
    | ok st => exact ⟨S_ISDIR st.st_mode, s₁, by simp [isdir, hst]⟩
    | error e =>
      have he := stat_err_os w s p hw hc hst
      exact ⟨false, s₁, by simp [isdir, hst, he]⟩

theorem isfile_error_not_os (w : World) (s : FileSystemCache) (p : String)
    {e : ErrKind} {s' : FileSystemCache} (h : isfile w s p = (.error e, s')) :
    e.isOSError = false := by
  cases hst : stat w s p with
  | mk r s₁ =>
    cases r with
    | ok st =>
      simp only [isfile, hst] at h
      exact absurd (congrArg Prod.fst h) (by simp)
    | error e0 =>
      cases he : e0.isOSError with
      | true =>
        simp only [isfile, hst, he, if_true] at h
        exact absurd (congrArg Prod.fst h) (by simp)
      | false =>
        simp only [isfile, hst, he] at h
        have : e0 = e := by
          have h2 := congrArg Prod.fst h
          simp at h2
          exact h2
        exact this ▸ he

end FileSystemCache


open FileSystemCache

/-- C1: within one transaction (no intervening flush), repeating any of
`stat`, `listdir`, `read_with_python_encoding` or `md5` on the same path
returns the identical result as the first call — the same value or the same
error kind — and leaves the cache state (including the logs of actual OS /
decoder calls) unchanged, even though the world `w` may answer differently
at later call indices (the filesystem changing between the calls). -/
theorem c1_repeat_query_same_result (w : World) (s : FileSystemCache) (p : String) :
    stat w (stat w s p).2 p = stat w s p ∧
    listdir w (listdir w s p).2 p = listdir w s p ∧
    read_with_python_encoding w (read_with_python_encoding w s p).2 p
      = read_with_python_encoding w s p ∧
    md5 w (md5 w s p).2 p = md5 w s p :=
  ⟨stat_idem w s p, listdir_idem w s p, read_idem w s p, md5_idem w s p⟩

/-- C2: if the first `stat(P)` in a transaction fails with kind `e`, every
subsequent `stat(P)` fails with the same kind `e` and performs no new OS
call (the returned state is exactly `s₁`, so in particular `stat_log` does
not grow); the same holds for `listdir`.  Moreover in every reachable state
the underlying OS primitive has been invoked at most once per path in the
current transaction (`countOcc` over the call log). -/
theorem c2_error_memoization (w : World) (s s₁ : FileSystemCache) (p : String) (e : ErrKind) :
    (stat w s p = (.error e, s₁) → stat w s₁ p = (.error e, s₁)) ∧
    (listdir w s p = (.error e, s₁) → listdir w s₁ p = (.error e, s₁)) ∧
    (Reachable s → countOcc p s.stat_log ≤ 1 ∧ countOcc p s.listdir_log ≤ 1) := by
  refine ⟨?_, ?_, ?_⟩
  · intro h
    have hi := stat_idem w s p
    rw [h] at hi
    exact hi
  · intro h
    have hi := listdir_idem w s p
    rw [h] at hi
    exact hi
  · intro hr
    have hI := reachable_inv hr
    constructor
    · rw [hI.stat_once p]
      split <;> omega
    · rw [hI.listdir_once p]
      split <;> omega

/-- C2 witness: on a fresh cache against a permission-denied filesystem,
after the first failing `stat("a")` the second `stat("a")` replays the same
error with no state change, and the OS stat / listdir primitives have each
been called at most once for "a". -/
theorem c2_error_memoization_witness :
    stat wFail sFailA "a" = (.error .permissionDenied, sFailA) ∧
    countOcc "a" sFailA.stat_log ≤ 1 ∧ countOcc "a" sFailA.listdir_log ≤ 1 := by
  have h := c2_error_memoization wFail sFailA sFailA "a" .permissionDenied
  have hreach : Reachable sFailA :=
    Reachable.step (Reachable.init (3, 6)) (Step.ofStat wFail (FileSystemCache.init (3, 6)) "a")
  exact ⟨h.1 rfl, (h.2.2 hreach).1, (h.2.2 hreach).2⟩

/-- C5: `exists` is narrower than the other derived queries: a successful
`stat` gives `true`, a `FileNotFoundError` from `stat` gives `false`, and
any other failure kind (for example permission denied) propagates to the
caller instead of being turned into a boolean. -/
theorem c5_exists_converts_only_notfound (w : World) (s : FileSystemCache) (p : String) :
    (∀ st s', stat w s p = (.ok st, s') → existsP w s p = (.ok true, s')) ∧
    (∀ s', stat w s p = (.error .notFound, s') → existsP w s p = (.ok false, s')) ∧
    (∀ e s', stat w s p = (.error e, s') → e ≠ .notFound → existsP w s p = (.error e, s')) := by
  refine ⟨?_, ?_, ?_⟩
  · intro st s' h
    simp [existsP, h]
  · intro s' h
    simp [existsP, h]
  · intro e s' h hne
    simp [existsP, h, hne]

/-- C5 witness: on fresh caches, `exists("a")` is `true` when `stat`
succeeds, `false` when `stat` fails with `FileNotFoundError`, and raises
`PermissionError` when `stat` fails with `PermissionError`. -/
theorem c5_exists_witness :
    (existsP wOk (FileSystemCache.init (3, 6)) "a").1 = .ok true ∧
    (existsP wNotFound (FileSystemCache.init (3, 6)) "a").1 = .ok false ∧
    (existsP wFail (FileSystemCache.init (3, 6)) "a").1 = .error .permissionDenied := by
  refine ⟨?_, ?_, ?_⟩
  · exact congrArg Prod.fst ((c5_exists_converts_only_notfound wOk
      (FileSystemCache.init (3, 6)) "a").1 ⟨33188, 10, 5⟩
      (stat wOk (FileSystemCache.init (3, 6)) "a").2 rfl)
  · exact congrArg Prod.fst ((c5_exists_converts_only_notfound wNotFound
      (FileSystemCache.init (3, 6)) "a").2.1
      (stat wNotFound (FileSystemCache.init (3, 6)) "a").2 rfl)
  · exact congrArg Prod.fst ((c5_exists_converts_only_notfound wFail
      (FileSystemCache.init (3, 6)) "a").2.2 .permissionDenied
      (stat wFail (FileSystemCache.init (3, 6)) "a").2 rfl (by decide))

/-- C8: a single `flush()` empties every cache: the `FileSystemMetaCache`
flush clears the stat / listdir success and error caches, and the
`FileSystemCache` flush (which calls the parent flush) additionally clears
the content, read-error and fingerprint caches — no cached entry survives
for any path. -/
theorem c8_flush_clears_everything (s : FileSystemCache) :
    (metaFlush s).stat_cache = [] ∧ (metaFlush s).stat_error_cache = [] ∧
    (metaFlush s).listdir_cache = [] ∧ (metaFlush s).listdir_error_cache = [] ∧
    (flush s).stat_cache = [] ∧ (flush s).stat_error_cache = [] ∧
    (flush s).listdir_cache = [] ∧ (flush s).listdir_error_cache = [] ∧
    (flush s).read_cache = [] ∧ (flush s).read_error_cache = [] ∧
    (flush s).hash_cache = [] ∧
    (∀ p, alookup (flush s).stat_cache p = none ∧ alookup (flush s).stat_error_cache p = none ∧
      alookup (flush s).listdir_cache p = none ∧
      alookup (flush s).listdir_error_cache p = none ∧
      alookup (flush s).read_cache p = none ∧ alookup (flush s).read_error_cache p = none ∧
      alookup (flush s).hash_cache p = none) := by
  refine ⟨rfl, rfl, rfl, rfl, rfl, rfl, rfl, rfl, rfl, rfl, rfl, ?_⟩
  intro p
  exact ⟨rfl, rfl, rfl, rfl, rfl, rfl, rfl⟩

/-- C3: in any reachable state, a successful `read_with_python_encoding(P)`
implies a `stat(P)` result is cached afterwards and the OS stat primitive
was invoked exactly once for P in this transaction (the stat happened no
later than the content read); and if the internal `stat(P)` of a fresh read
fails, that same failure is raised by the read and the content, read-error
and fingerprint caches are left untouched — nothing is cached for P in any
of them. -/
theorem c3_stat_before_read (w : World) (s : FileSystemCache) (p : String)
    (hr : Reachable s) :
    (∀ d s', read_with_python_encoding w s p = (.ok d, s') →
        (alookup s'.stat_cache p).isSome ∧ countOcc p s'.stat_log = 1) ∧
    (∀ e s₁, alookup s.read_cache p = none → alookup s.read_error_cache p = none →
        stat w s p = (.error e, s₁) →
        read_with_python_encoding w s p = (.error e, s₁) ∧
        s₁.read_cache = s.read_cache ∧ s₁.read_error_cache = s.read_error_cache ∧
        s₁.hash_cache = s.hash_cache ∧
        alookup s₁.read_cache p = none ∧ alookup s₁.read_error_cache p = none ∧
        alookup s₁.hash_cache p = none) := by
  constructor
  · intro d s' h
    have hI' : Inv s' := by
      have h2 := inv_read w s p (reachable_inv hr)
      rw [h] at h2
      exact h2
    have hrc := read_ok_cached w s p d s' h
    have hsc := hI'.read_stat p hrc
    refine ⟨hsc, ?_⟩
    have hcnt := hI'.stat_once p
    rw [hsc] at hcnt
    simpa using hcnt
  · intro e s₁ h1 h2 h3
    have hread := read_fresh_stat_err w s p e s₁ h1 h2 h3
    have hfr := stat_frame_eq w s p (.error e) s₁ h3
    have hhash : alookup s.hash_cache p = none := by
      cases hh : alookup s.hash_cache p with
      | none => rfl
      | some v =>
        have := ((reachable_inv hr).hash_keys p).2 (by simp [hh])
        rw [h1] at this
        simp at this
    exact ⟨hread, hfr.1, hfr.2.1, hfr.2.2, hfr.1 ▸ h1, hfr.2.1 ▸ h2, hfr.2.2 ▸ hhash⟩

/-- C3 witness: on a fresh cache, after a successful `read("a")` against a
readable filesystem the stat result for "a" is cached and the OS stat ran
exactly once; against a permission-denied filesystem the read raises the
stat failure and caches nothing in the three content caches. -/
theorem c3_stat_before_read_witness :
    ((alookup sReadA.stat_cache "a").isSome ∧ countOcc "a" sReadA.stat_log = 1) ∧
    (read_with_python_encoding wFail (FileSystemCache.init (3, 6)) "a"
        = (.error .permissionDenied, sFailA) ∧
      sFailA.read_cache = [] ∧ sFailA.read_error_cache = [] ∧ sFailA.hash_cache = []) := by
  constructor
  · exact (c3_stat_before_read wOk (FileSystemCache.init (3, 6)) "a"
      (Reachable.init (3, 6))).1 "text" sReadA rfl
  · have h := (c3_stat_before_read wFail (FileSystemCache.init (3, 6)) "a"
      (Reachable.init (3, 6))).2 .permissionDenied sFailA rfl rfl rfl
    exact ⟨h.1, h.2.1, h.2.2.1, h.2.2.2.1⟩

/-- C4 counterexample: the claim says the boolean derived queries never
raise for any failure of the underlying operations, but `isfile` / `isdir`
catch only `OSError` and `isfile_case` only `OSError`, while `_stat` /
`_listdir` cache arbitrary exceptions: when `os.stat` raises a Python
`ValueError` (e.g. for a path with an embedded null byte, here modelled by
`wValueErr`), all three queries re-raise it instead of returning false. -/
theorem c4_counterexample :
    (isfile wValueErr (FileSystemCache.init (3, 6)) "a\x00b").1 = .error .valueError ∧
    (isdir wValueErr (FileSystemCache.init (3, 6)) "a\x00b").1 = .error .valueError ∧
    (isfile_case wValueErr (FileSystemCache.init (3, 6)) "d/x").1 = .error .valueError := by
  refine ⟨rfl, rfl, rfl⟩

/-- C4 (amended): `isfile`, `isdir` and `isfile_case` never raise provided
every failure the underlying stat / listdir machinery can produce (fresh
from the OS oracle or replayed from the error caches) is an OS-level error
(`OSError` kind); under that proviso a failing `stat` makes `isfile` and
`isdir` return false. -/
theorem c4_derived_queries_total_for_os_errors (w : World) (s : FileSystemCache) (p : String)
    (hw : ∀ n q e, w.statFn n q = .error e → e.isOSError = true)
    (hw' : ∀ n q e, w.listdirFn n q = .error e → e.isOSError = true)
    (hc : ∀ q e, alookup s.stat_error_cache q = some e → e.isOSError = true)
    (hc' : ∀ q e, alookup s.listdir_error_cache q = some e → e.isOSError = true) :
    (∃ b s', isfile w s p = (.ok b, s')) ∧
    (∃ b s', isdir w s p = (.ok b, s')) ∧
    (∃ b s', isfile_case w s p = (.ok b, s')) ∧
    (∀ e s', stat w s p = (.error e, s') →
        isfile w s p = (.ok false, s') ∧ isdir w s p = (.ok false, s')) := by
  refine ⟨isfile_ok_of_os w s p hw hc, isdir_ok_of_os w s p hw hc, ?_, ?_⟩
  · by_cases ht : (splitPath p).2 = ""
    · exact ⟨false, s, by simp [isfile_case, ht]⟩
    · cases hld : listdir w s (splitPath p).1 with
      | mk r s' =>
        cases r with
        | error e =>
          have he := listdir_err_os w s (splitPath p).1 hw' hc' hld
          exact ⟨false, s', by simp [isfile_case, ht, hld, he]⟩
        | ok names =>
          cases hm : names.contains (splitPath p).2 with
          | false =>
            refine ⟨false, s', ?_⟩
            simp only [isfile_case, ht, if_neg, ite_false, hld]
            rw [if_neg (by simpa using hm)]
          | true =>
            have hc2 : ∀ q e, alookup s'.stat_error_cache q = some e → e.isOSError = true := by
              have hfr := (listdir_frame_eq w s (splitPath p).1 (.ok names) s' hld).2
              rw [hfr]
              exact hc
            obtain ⟨b, s'', hb⟩ := isfile_ok_of_os w s' p hw hc2
            refine ⟨b, s'', ?_⟩
            simp only [isfile_case, ht, if_neg, ite_false, hld]
            rw [if_pos (by simpa using hm), hb]
  · intro e s' h
    have he := stat_err_os w s p hw hc h
    exact ⟨by simp [isfile, h, he], by simp [isdir, h, he]⟩

/-- C4 (amended) witness: against a permission-denied filesystem on a fresh
cache, `isfile`, `isdir` and `isfile_case` all return false rather than
raising. -/
theorem c4_derived_queries_total_witness :
    (∃ b s', isfile wFail (FileSystemCache.init (3, 6)) "a" = (.ok b, s')) ∧
    isfile wFail (FileSystemCache.init (3, 6)) "a"
      = (.ok false, (stat wFail (FileSystemCache.init (3, 6)) "a").2) ∧
    isdir wFail (FileSystemCache.init (3, 6)) "a"
      = (.ok false, (stat wFail (FileSystemCache.init (3, 6)) "a").2) ∧
    (∃ b s', isfile_case wFail (FileSystemCache.init (3, 6)) "d/x" = (.ok b, s')) := by
  have hw : ∀ n q e, wFail.statFn n q = .error e → e.isOSError = true := by
    intro n q e h
    cases h
    rfl
  have hw' : ∀ n q e, wFail.listdirFn n q = .error e → e.isOSError = true := by
    intro n q e h
    cases h
    rfl
  have hc : ∀ q e, alookup (FileSystemCache.init (3, 6)).stat_error_cache q = some e →
      e.isOSError = true := by
    intro q e h
    cases h
  have hc' : ∀ q e, alookup (FileSystemCache.init (3, 6)).listdir_error_cache q = some e →
      e.isOSError = true := by
    intro q e h
    cases h
  have h1 := c4_derived_queries_total_for_os_errors wFail (FileSystemCache.init (3, 6)) "a"
    hw hw' hc hc'
  have h2 := c4_derived_queries_total_for_os_errors wFail (FileSystemCache.init (3, 6)) "d/x"
    hw hw' hc hc'
  exact ⟨h1.1, (h1.2.2.2 .permissionDenied _ rfl).1, (h1.2.2.2 .permissionDenied _ rfl).2,
    h2.2.2.1⟩

/-- C6: `isfile_case` returns false immediately when the final path
component is empty; when listing the parent fails with an OS-level error it
returns false; when the listing succeeds it returns false if the exact-case
final component is absent, and otherwise behaves exactly as `isfile(path)`
(so it is true iff the exact-case component is listed and `isfile` holds).
Concretely, for a directory "d" containing exactly "Foo.py":
`isfile_case("d/Foo.py")` is true while "d/foo.py", "d/missing.py" and
"d/" (empty final component) are all false. -/
theorem c6_isfile_case_behavior (w : World) (s : FileSystemCache) (p : String) :
    ((splitPath p).2 = "" → isfile_case w s p = (.ok false, s)) ∧
    (∀ e s', (splitPath p).2 ≠ "" → listdir w s (splitPath p).1 = (.error e, s') →
        e.isOSError = true → isfile_case w s p = (.ok false, s')) ∧
    (∀ names s', (splitPath p).2 ≠ "" → listdir w s (splitPath p).1 = (.ok names, s') →
        (names.contains (splitPath p).2 = false → isfile_case w s p = (.ok false, s')) ∧
        (names.contains (splitPath p).2 = true → isfile_case w s p = isfile w s' p)) ∧
    (isfile_case w6 (FileSystemCache.init (3, 6)) "d/Foo.py").1 = .ok true ∧
    (isfile_case w6 (FileSystemCache.init (3, 6)) "d/foo.py").1 = .ok false ∧
    (isfile_case w6 (FileSystemCache.init (3, 6)) "d/missing.py").1 = .ok false ∧
    (isfile_case w6 (FileSystemCache.init (3, 6)) "d/").1 = .ok false := by
  refine ⟨?_, ?_, ?_, rfl, rfl, rfl, rfl⟩
  · intro ht
    simp [isfile_case, ht]
  · intro e s' ht hld he
    simp [isfile_case, ht, hld, he]
  · intro names s' ht hld
    constructor
    · intro hm
      simp only [isfile_case, ht, if_neg, ite_false, hld]
      rw [if_neg (by simpa using hm)]
    · intro hm
      simp only [isfile_case, ht, if_neg, ite_false, hld]
      rw [if_pos (by simpa using hm)]
      cases hif : isfile w s' p with
      | mk r s'' =>
        cases r with
        | ok b => rfl
        | error e =>
          have hno := isfile_error_not_os w s' p hif
          simp [hno]

/-- C6 witness: the empty-final-component case and the wrong-case-absent
case, evaluated against the one-file directory world `w6`. -/
theorem c6_isfile_case_witness :
    isfile_case w6 (FileSystemCache.init (3, 6)) "d/" = (.ok false, FileSystemCache.init (3, 6)) ∧
    isfile_case w6 (FileSystemCache.init (3, 6)) "d/foo.py"
      = (.ok false, (listdir w6 (FileSystemCache.init (3, 6)) "d").2) := by
  constructor
  · exact (c6_isfile_case_behavior w6 (FileSystemCache.init (3, 6)) "d/").1 rfl
  · exact ((c6_isfile_case_behavior w6 (FileSystemCache.init (3, 6)) "d/foo.py").2.2.1
      ["Foo.py"] (listdir w6 (FileSystemCache.init (3, 6)) "d").2 (by decide) rfl).1 rfl

/-- C7: a fresh successful `read_with_python_encoding(P)` stores, from one
single decoder call, both the returned text and its fingerprint; `md5(P)`
then returns exactly that fingerprint, and both repeat calls are served
from cache with no state change (in particular `read_log` does not grow, so
the decoder is not re-invoked). -/
theorem c7_fingerprint_text_coupling (w : World) (s : FileSystemCache) (p : String)
    (h1 : alookup s.read_cache p = none) (h2 : alookup s.read_error_cache p = none) :
    ∀ d s', read_with_python_encoding w s p = (.ok d, s') →
      ∃ hsh st s₁, stat w s p = (.ok st, s₁) ∧
        w.readFn s₁.read_log.length p s₁.pyversion = .ok (d, hsh) ∧
        alookup s'.read_cache p = some d ∧ alookup s'.hash_cache p = some hsh ∧
        md5 w s' p = (.ok hsh, s') ∧
        read_with_python_encoding w s' p = (.ok d, s') := by
  intro d s' h
  have hidem := read_idem w s p
  cases hst : stat w s p with
  | mk r s₁ =>
    cases r with
    | error e =>
      have hre := read_fresh_stat_err w s p e s₁ h1 h2 hst
      rw [hre] at h
      exact absurd (congrArg Prod.fst h) (by simp)
    | ok st =>
      cases h4 : w.readFn s₁.read_log.length p s₁.pyversion with
      | error e =>
        have hre : read_with_python_encoding w s p
            = (.error e, { s₁ with read_error_cache := (p, e) :: s₁.read_error_cache
                                   read_log := p :: s₁.read_log }) := by
          simp [read_with_python_encoding, h1, h2, hst, h4]
        rw [hre] at h
        exact absurd (congrArg Prod.fst h) (by simp)
      | ok dh =>
        have hre : read_with_python_encoding w s p
            = (.ok dh.1, { s₁ with read_cache := (p, dh.1) :: s₁.read_cache
                                   hash_cache := (p, dh.2) :: s₁.hash_cache
                                   read_log := p :: s₁.read_log }) := by
          simp [read_with_python_encoding, h1, h2, hst, h4]
        rw [hre] at h
        injection h with ha hb
        injection ha with ha
        subst ha
        subst hb
        refine ⟨dh.2, st, s₁, rfl, h4, by simp [alookup_cons_self],
          by simp [alookup_cons_self], by simp [md5, alookup_cons_self], ?_⟩
        rw [hre] at hidem
        exact hidem

/-- C7 witness: after a fresh read of "a" in the readable world, the read
cache holds "text", the fingerprint cache holds "hash", and `md5` serves
"hash" from cache with no state change. -/
theorem c7_fingerprint_text_coupling_witness :
    alookup sReadA.read_cache "a" = some "text" ∧
    md5 wOk sReadA "a" = (.ok "hash", sReadA) ∧
    read_with_python_encoding wOk sReadA "a" = (.ok "text", sReadA) := by
  obtain ⟨hsh, st, s₁, hstat, hread, hrc, hhc, hmd5, hre⟩ :=
    c7_fingerprint_text_coupling wOk (FileSystemCache.init (3, 6)) "a" rfl rfl "text" sReadA rfl
  have hh : hsh = "hash" :=
    Option.some.inj (hhc.symm.trans (rfl : alookup sReadA.hash_cache "a" = some "hash"))
  subst hh
  exact ⟨hrc, hmd5, hre⟩

/-- C9: in every reachable state, for every path at most one of the cached
stat success and cached stat error exists, and likewise for the listdir
pair and the content (read) pair. -/
theorem c9_success_error_exclusion (s : FileSystemCache) (hr : Reachable s) (p : String) :
    (alookup s.stat_cache p = none ∨ alookup s.stat_error_cache p = none) ∧
    (alookup s.listdir_cache p = none ∨ alookup s.listdir_error_cache p = none) ∧
    (alookup s.read_cache p = none ∨ alookup s.read_error_cache p = none) := by
  have hI := reachable_inv hr
  refine ⟨?_, ?_, ?_⟩
  · cases hc : alookup s.stat_cache p with
    | none => exact Or.inl rfl
    | some v => exact Or.inr (hI.stat_excl p (by simp [hc]))
  · cases hc : alookup s.listdir_cache p with
    | none => exact Or.inl rfl
    | some v => exact Or.inr (hI.listdir_excl p (by simp [hc]))
  · cases hc : alookup s.read_cache p with
    | none => exact Or.inl rfl
    | some v => exact Or.inr (hI.read_excl p (by simp [hc]))

/-- C9 witness: the mutual-exclusion property at the reachable state that
mixes a cached stat failure for "a" with cached content for "b". -/
theorem c9_success_error_exclusion_witness :
    ((alookup sMix.stat_cache "a" = none ∨ alookup sMix.stat_error_cache "a" = none) ∧
      (alookup sMix.listdir_cache "a" = none ∨ alookup sMix.listdir_error_cache "a" = none) ∧
      (alookup sMix.read_cache "a" = none ∨ alookup sMix.read_error_cache "a" = none)) ∧
    ((alookup sMix.stat_cache "b" = none ∨ alookup sMix.stat_error_cache "b" = none) ∧
      (alookup sMix.listdir_cache "b" = none ∨ alookup sMix.listdir_error_cache "b" = none) ∧
      (alookup sMix.read_cache "b" = none ∨ alookup sMix.read_error_cache "b" = none)) := by
  have hreach : Reachable sMix :=
    Reachable.step
      (Reachable.step (Reachable.init (3, 6)) (Step.ofStat wFail (FileSystemCache.init (3, 6)) "a"))
      (Step.ofRead wOk sFailA "b")
  exact ⟨c9_success_error_exclusion sMix hreach "a", c9_success_error_exclusion sMix hreach "b"⟩

/-- C10: in every reachable state the content cache and the fingerprint
cache hold exactly the same set of paths; in particular, whenever `md5`
finds a cached fingerprint it returns it with no state change and a cached
text for the same path exists as well. -/
theorem c10_text_fingerprint_keys_agree (s : FileSystemCache) (hr : Reachable s)
    (w : World) (p : String) :
    ((alookup s.read_cache p).isSome ↔ (alookup s.hash_cache p).isSome) ∧
    (∀ hsh, alookup s.hash_cache p = some hsh →
        md5 w s p = (.ok hsh, s) ∧ (alookup s.read_cache p).isSome) := by
  have hI := reachable_inv hr
  refine ⟨hI.hash_keys p, ?_⟩
  intro hsh hh
  exact ⟨by simp [md5, hh], (hI.hash_keys p).2 (by simp [hh])⟩

/-- C10 witness: at the reachable state with cached content for "a", the
key sets agree and the cached fingerprint implies a cached text. -/
theorem c10_text_fingerprint_keys_witness :
    ((alookup sReadA.read_cache "a").isSome ↔ (alookup sReadA.hash_cache "a").isSome) ∧
    (alookup sReadA.read_cache "a").isSome := by
  have hreach : Reachable sReadA :=
    Reachable.step (Reachable.init (3, 6)) (Step.ofRead wOk (FileSystemCache.init (3, 6)) "a")
  have h := c10_text_fingerprint_keys_agree sReadA hreach wOk "a"
  exact ⟨h.1, (h.2 "hash" rfl).2⟩
